import Mathlib

/-!
Verification development for the `hive_metastore.thrift` package:
a shallow embedding of `arrow.py` (`unquote`, `aware_split`, `parse_dtype`,
`convert_fields`, `convert_schema`) and of
`__init__.py` (`prepend_catalog_to_database`), over `List Char` strings.
Python exceptions are modelled with `Except`; the module-level
`logger.warning` diagnostics of `parse_dtype` are modelled as an explicit
list of warnings returned next to the parsed type.
-/

namespace HiveMetastore

/-- Python exceptions raised by the embedded code, as structured values.
`valueErrorMaxSplit got` models `ValueError("max_split must be >= -1, got {got}")`;
`valueErrorUnpack got` models the `ValueError` of unpacking an iterable of
`got` elements into two variables ("not enough values to unpack" /
"too many values to unpack"); `attributeError` models
`AttributeError: 'NoneType' object has no attribute 'strip'`;
`typeError` models `TypeError` (iterating `None`, or passing a `str` where
pyarrow's Cython signature demands an `int`); `valueErrorDecimal` models
pyarrow's precision range check in `decimal128`; `stopIteration` models an
exhausted `next`; `fuelOut` is an artifact of the fuel-based recursion and is
unreachable for the fuel budgets used here. -/
inductive PyErr where
  | valueErrorMaxSplit (got : Int)
  | valueErrorUnpack (got : Nat)
  | attributeError
  | typeError
  | valueErrorDecimal
  | stopIteration
  | fuelOut
deriving DecidableEq, Repr

/-- Python slice `s[a:b]` with full negative-index-and-clamping semantics. -/
def pySlice (s : List Char) (a b : Int) : List Char :=
  let n : Int := s.length
  let a' : Int := if a < 0 then max (n + a) 0 else min a n
  let b' : Int := if b < 0 then max (n + b) 0 else min b n
  (s.take b'.toNat).drop a'.toNat

/-- Python slice `s[i:j]` for the non-negative indices used by `aware_split`. -/
def pySubstr (s : List Char) (i j : Nat) : List Char :=
  (s.drop i).take (j - i)

/-- Python's whitespace class for `str.strip` (ASCII part). -/
def isPySpace (c : Char) : Bool :=
  c = ' ' || c = '\t' || c = '\n' || c = '\r' || c = '\x0b' || c = '\x0c'

/-- Python `str.strip()` (ASCII whitespace). -/
def pyStrip (s : List Char) : List Char :=
  ((s.dropWhile isPySpace).reverse.dropWhile isPySpace).reverse

/-- The scanning loop of `aware_split` (`arrow.py`): `rest` is the unscanned
suffix `s[j:]`, `i` is the start of the current segment, `parens` the bracket
depth, `quotes` the inside-quotes flag, `ms` the remaining split budget.
Mirrors the Python `for j, character in enumerate(string)` body line by line;
the two-element results correspond to `break` followed by the trailing
`yield string[i:]`. -/
def awareSplitGo (s : List Char) (delim quo : Char) (eq : List Char)
    (ob cb : Char) :
    List Char → Nat → Nat → Int → Bool → Int → List (List Char)
  | [], _, i, _, _, _ => [s.drop i]
  | c :: rest, j, i, parens, quotes, ms =>
    if (parens = 0 ∧ quotes = false) ∧ c = delim then
      let ms' := if ms ≠ -1 then ms - 1 else ms
      if ms' = 0 then [pySubstr s i j, s.drop (j + 1)]
      else pySubstr s i j ::
        awareSplitGo s delim quo eq ob cb rest (j + 1) (j + 1) parens quotes ms'
    else if c = ob then
      awareSplitGo s delim quo eq ob cb rest (j + 1) i (parens + 1) quotes ms
    else if c = cb then
      awareSplitGo s delim quo eq ob cb rest (j + 1) i (parens - 1) quotes ms
    else if c = quo then
      let quotes' :=
        if quotes = true ∧ pySlice s ((j : Int) - eq.length + 1) ((j : Int) + 1) ≠ eq
        then false
        else if quotes = false then true
        else quotes
      awareSplitGo s delim quo eq ob cb rest (j + 1) i parens quotes' ms
    else
      awareSplitGo s delim quo eq ob cb rest (j + 1) i parens quotes ms

/-- `aware_split` of `arrow.py`, with the generator materialized as the list
of all yielded segments; the `ValueError` raised (on first `next`) for
`max_split < -1` becomes an `Except.error`. The delimiter, quote and bracket
parameters are single characters, as in every use site and in the defaults. -/
def aware_split (string : List Char) (delimiter : Char) (max_split : Int)
    (quo : Char) (escaped_quote : List Char) (open_bracket close_bracket : Char) :
    Except PyErr (List (List Char)) :=
  if max_split < -1 then .error (.valueErrorMaxSplit max_split)
  else if max_split = 0 then .ok [string]
  else .ok (awareSplitGo string delimiter quo escaped_quote open_bracket
    close_bracket string 0 0 0 false max_split)

/-- Python's `str.replace` for a two-character pattern `[a, b]` replaced by the
single character `r`: leftmost, non-overlapping, the replacement is not
rescanned. -/
def replace2 (a b r : Char) : List Char → List Char
  | [] => []
  | [c] => [c]
  | c1 :: c2 :: rest =>
    if c1 = a ∧ c2 = b then r :: replace2 a b r rest
    else c1 :: replace2 a b r (c2 :: rest)

/-- `unquote` of `arrow.py`: if the string starts and ends with the quote
character, strip them (`string[1:-1]`) and apply
`.replace(escape + quote, quote).replace(escape + escape, escape)`. -/
def unquote (string : List Char) (quo : Char) (esc : Char) : List Char :=
  if string.head? = some quo ∧ string.getLast? = some quo then
    replace2 esc esc esc (replace2 esc quo quo ((string.drop 1).dropLast))
  else string

/-- A single left-to-right unescaping pass, as the specification describes it:
`(escape, quote)` becomes the quote, `(escape, escape)` becomes the escape,
anything else is copied. -/
def unescapePass (e q : Char) : List Char → List Char
  | [] => []
  | [c] => [c]
  | c1 :: c2 :: rest =>
    if c1 = e ∧ c2 = q then q :: unescapePass e q rest
    else if c1 = e ∧ c2 = e then e :: unescapePass e q rest
    else c1 :: unescapePass e q (c2 :: rest)

/-- Concatenation of segments with one delimiter between consecutive segments. -/
def joinWith (d : Char) : List (List Char) → List Char
  | [] => []
  | [x] => x
  | x :: rest => x ++ d :: joinWith d rest

/-- The pyarrow type tree, restricted to the constructors `parse_dtype`
produces: `pa.null()`, `pa.date32()`, `pa.timestamp("us", tz=None)`,
`pa.duration("s")`, `pa.string()`, `pa.binary()`, `pa.decimal128(p, s)`,
`pa.float32/64()`, `pa.int8/16/32/64()`, `pa.bool_()`, `pa.list_`, `pa.map_`
and `pa.struct`. Struct fields are built with `pa.field(name, type)`, whose
`nullable=True` / `metadata=None` defaults are constant, so a field is a
`(name, type)` pair here. -/
inductive DataType where
  | null
  | date32
  | timestampUs
  | durationS
  | string
  | binary
  | decimal128 (precision scale : Int)
  | float32
  | float64
  | int8
  | int16
  | int32
  | int64
  | boolean
  | list (item : DataType)
  | map (key value : DataType)
  | struct (fields : List (List Char × DataType))

/-- Diagnostics emitted through `logger.warning` by `parse_dtype`, with the
(normalized) type string they report. -/
inductive Warn where
  | couldNotParse (dtype : List Char)
  | unsupported (dtype : List Char)
deriving DecidableEq, Repr

/-- A Python value that is either an `int` or a `str`: the `precision` and
`scale` locals of the `DECIMAL` branch hold `10`/`0` (ints) or raw segment
strings from `aware_split`. -/
inductive PyVal where
  | int (n : Int)
  | str (s : List Char)
deriving DecidableEq, Repr

/-- `pyarrow.decimal128` (Cython signature `decimal128(int precision,
int scale=0)`): a non-`int` argument raises `TypeError`; an `int` precision
outside `1..38` raises `ValueError`. -/
def pa_decimal128 (precision scale : PyVal) : Except PyErr DataType :=
  match precision, scale with
  | .int p, .int s =>
    if p < 1 ∨ 38 < p then .error .valueErrorDecimal
    else .ok (.decimal128 p s)
  | _, _ => .error .typeError

/-- Python `\w` (ASCII part), as used by the keyword regex of `parse_dtype`. -/
def isWordChar (c : Char) : Bool :=
  c.isAlphanum || c = '_'

/-- The `dtype.strip().upper()` normalization at the top of `parse_dtype`
(ASCII uppercase). -/
def normalize_dtype (s : List Char) : List Char :=
  (pyStrip s).map Char.toUpper

/-- Index of the last `'>'` of a list, if any. -/
def lastGtIdx : List Char → Option Nat
  | [] => none
  | c :: rest =>
    match lastGtIdx rest with
    | some k => some (k + 1)
    | none => if c = '>' then some 0 else none

/-- `re.match(r"^(?P<type>\w+)\s*(?:<(?P<options>.*)>)?", dtype)`:
the greedy `\w+` keyword, then `\s*`, then optionally `<` followed by a
greedy `.*` (which does not cross a newline) backtracking to the last `'>'`;
if the optional group cannot match, the match still succeeds with no options.
Returns `none` exactly when `\w+` cannot match (empty keyword). -/
def re_match_dtype (s : List Char) : Option (List Char × Option (List Char)) :=
  let tn := s.takeWhile isWordChar
  if tn.isEmpty then none
  else
    let r1 := (s.dropWhile isWordChar).dropWhile isPySpace
    match r1 with
    | '<' :: r2 =>
      let scope := r2.takeWhile (fun c => c ≠ '\n')
      match lastGtIdx scope with
      | some k => some (tn, some (scope.take k))
      | none => some (tn, none)
    | _ => some (tn, none)

/-- `aware_split(type_opts)` as invoked by the `MAP` and `STRUCT` branches of
`parse_dtype` (all keyword defaults), on an options value that may be `None`:
iterating `aware_split(None)` raises `TypeError` when `enumerate(None)` is
forced. -/
def aware_split_opts (opts : Option (List Char)) (delimiter : Char)
    (max_split : Int) : Except PyErr (List (List Char)) :=
  match opts with
  | none => .error .typeError
  | some s => aware_split s delimiter max_split '"' ['\\', '"'] '(' ')'

/-- Unpacking an iterator of segments into exactly two variables
(`a, b = it`): fewer or more than two elements raise `ValueError`. -/
def unpack2 (l : List (List Char)) : Except PyErr (List Char × List Char) :=
  match l with
  | [a, b] => .ok (a, b)
  | _ => .error (.valueErrorUnpack l.length)

/-- The `for attr in aware_split(type_opts)` loop body of the `STRUCT` branch:
each entry is stripped, split on the first space into (name, type-string)
(an entry with no top-level space makes the two-variable unpacking raise),
the name is unquoted, the type-string parsed by the supplied parser. Fields
are accumulated in entry order, warnings in parse order. -/
def parse_struct_attrs
    (parse : Option (List Char) → Except PyErr (DataType × List Warn)) :
    List (List Char) → Except PyErr (List (List Char × DataType) × List Warn)
  | [] => .ok ([], [])
  | attr :: rest =>
    match aware_split (pyStrip attr) ' ' 1 '"' ['\\', '"'] '(' ')' with
    | .error e => .error e
    | .ok parts =>
      match unpack2 parts with
      | .error e => .error e
      | .ok (attr_name, attr_type_str) =>
        match parse (some attr_type_str) with
        | .error e => .error e
        | .ok (attr_type, w1) =>
          match parse_struct_attrs parse rest with
          | .error e => .error e
          | .ok (fields, w2) =>
            .ok ((unquote attr_name '"' '\\', attr_type) :: fields, w1 ++ w2)

/-- The body of `parse_dtype` (`arrow.py`), with the recursive calls
abstracted into the `parse` parameter: normalize, run the keyword regex,
dispatch on the keyword. -/
def parse_dtype_step
    (parse : Option (List Char) → Except PyErr (DataType × List Warn))
    (dtype0 : List Char) : Except PyErr (DataType × List Warn) :=
    match re_match_dtype (normalize_dtype dtype0) with
    | none => .ok (.null, [.couldNotParse (normalize_dtype dtype0)])
    | some (type_name, type_opts) =>
      if type_name = "ARRAY".data then
        match parse type_opts with
        | .error e => .error e
        | .ok (item_type, w) => .ok (.list item_type, w)
      else if type_name = "MAP".data then
        match aware_split_opts type_opts ',' (-1) with
        | .error e => .error e
        | .ok segs =>
          match unpack2 segs with
          | .error e => .error e
          | .ok (key_type_str, value_type_str) =>
            match parse (some key_type_str) with
            | .error e => .error e
            | .ok (key_type, w1) =>
              match parse (some value_type_str) with
              | .error e => .error e
              | .ok (value_type, w2) => .ok (.map key_type value_type, w1 ++ w2)
      else if type_name = "STRUCT".data then
        match aware_split_opts type_opts ',' (-1) with
        | .error e => .error e
        | .ok attrs =>
          match parse_struct_attrs parse attrs with
          | .error e => .error e
          | .ok (fields, w) => .ok (.struct fields, w)
      else if type_name = "DATE".data then .ok (.date32, [])
      else if type_name = "TIMESTAMP".data then .ok (.timestampUs, [])
      else if type_name = "INTERVAL".data then .ok (.durationS, [])
      else if type_name = "STRING".data ∨ type_name = "VARCHAR".data ∨
          type_name = "CHAR".data then .ok (.string, [])
      else if type_name = "BINARY".data then .ok (.binary, [])
      else if type_name = "DECIMAL".data ∨ type_name = "NUMERIC".data then
        -- precision, scale = 10, 0; both replaced by raw strings when the
        -- (angle-bracket) options are truthy
        match type_opts with
        | some o =>
          if o.isEmpty then
            (pa_decimal128 (.int 10) (.int 0)).map (fun t => (t, []))
          else
            match aware_split o ',' (-1) '"' ['\\', '"'] '(' ')' with
            | .error e => .error e
            | .ok [] => .error .stopIteration
            | .ok (p :: rest) =>
              let scaleVal : PyVal := match rest with
                | sc :: _ => .str sc
                | [] => .int 0
              (pa_decimal128 (.str p) scaleVal).map (fun t => (t, []))
        | none => (pa_decimal128 (.int 10) (.int 0)).map (fun t => (t, []))
      else if type_name = "FLOAT".data then .ok (.float32, [])
      else if type_name = "DOUBLE".data ∨ type_name = "DOUBLE PRECISION".data then
        -- the second disjunct is dead code: `\w+` never matches a space
        .ok (.float64, [])
      else if type_name = "TINYINT".data then .ok (.int8, [])
      else if type_name = "SMALLINT".data then .ok (.int16, [])
      else if type_name = "INT".data ∨ type_name = "INTEGER".data then .ok (.int32, [])
      else if type_name = "BIGINT".data then .ok (.int64, [])
      else if type_name = "BOOLEAN".data then .ok (.boolean, [])
      else .ok (.null, [.unsupported (normalize_dtype dtype0)])

/-- `parse_dtype` of `arrow.py`, with a fuel parameter bounding the recursion
depth (the callers below always supply more fuel than the nesting depth of
the descriptor, so `fuelOut` is unreachable). A `none` argument models the
`None` that the `ARRAY` branch passes when the regex captured no options:
`None.strip()` raises `AttributeError` before anything else happens. -/
def parse_dtype_fuel : Nat → Option (List Char) → Except PyErr (DataType × List Warn)
  | _, none => .error .attributeError
  | 0, some _ => .error .fuelOut
  | fuel + 1, some dtype0 => parse_dtype_step (fun o => parse_dtype_fuel fuel o) dtype0

/-- `parse_dtype` on an actual string: the fuel `|dtype| + 1` strictly
dominates the recursion depth (every recursive call is on a strictly shorter
substring of the descriptor). -/
def parse_dtype (dtype : List Char) : Except PyErr (DataType × List Warn) :=
  parse_dtype_fuel (dtype.length + 1) (some dtype)

/-- The type keywords recognized by the dispatch chain of `parse_dtype`
(including the dead `"DOUBLE PRECISION"` alternative). -/
def KNOWN_TYPE_KEYWORDS : List (List Char) :=
  ["ARRAY".data, "MAP".data, "STRUCT".data, "DATE".data, "TIMESTAMP".data,
   "INTERVAL".data, "STRING".data, "VARCHAR".data, "CHAR".data, "BINARY".data,
   "DECIMAL".data, "NUMERIC".data, "FLOAT".data, "DOUBLE".data,
   "DOUBLE PRECISION".data, "TINYINT".data, "SMALLINT".data, "INT".data,
   "INTEGER".data, "BIGINT".data, "BOOLEAN".data]

/-- A thrift `FieldSchema` as consumed by `convert_fields`: name, type
descriptor string, optional comment. -/
structure FieldSchema where
  name : List Char
  type : List Char
  comment : Option (List Char)

/-- A pyarrow `Field` as built by `convert_fields`: `metadata` is
`dict(comment=...)` when present, modelled by the comment it carries. -/
structure ArrowField where
  name : List Char
  dtype : DataType
  nullable : Bool
  metadata : Option (List Char)

/-- `convert_fields` of `arrow.py`: parse the type descriptor, attach
`dict(comment=...)` metadata only for a truthy (non-`None`, non-empty)
comment, nullability always `True`. -/
def convert_fields (field : FieldSchema) : Except PyErr ArrowField :=
  match parse_dtype field.type with
  | .error e => .error e
  | .ok (dtype, _warnings) =>
    let metadata : Option (List Char) :=
      match field.comment with
      | some c => if c.isEmpty then none else some c
      | none => none
    .ok ⟨field.name, dtype, true, metadata⟩

/-- The list comprehension `[convert_fields(c) for c in cols]`: left-to-right,
the first exception aborts the whole comprehension. -/
def convert_fields_list : List FieldSchema → Except PyErr (List ArrowField)
  | [] => .ok []
  | f :: rest =>
    match convert_fields f with
    | .error e => .error e
    | .ok af =>
      match convert_fields_list rest with
      | .error e => .error e
      | .ok rst => .ok (af :: rst)

/-- `convert_schema` of `arrow.py`: `pa.schema(fields + part_fields)`, the
schema being the concatenated field list. -/
def convert_schema (cols part_cols : List FieldSchema) :
    Except PyErr (List ArrowField) :=
  match convert_fields_list cols with
  | .error e => .error e
  | .ok fields =>
    match convert_fields_list part_cols with
    | .error e => .error e
    | .ok part_fields => .ok (fields ++ part_fields)

/-- `DEFAULT_CATALOG_NAME` of `__init__.py`. -/
def DEFAULT_CATALOG_NAME : List Char := "hive".data

/-- `CATALOG_DB_THRIFT_NAME_MARKER` of `__init__.py`. -/
def CATALOG_DB_THRIFT_NAME_MARKER : Char := '@'

/-- `CATALOG_DB_SEPARATOR` of `__init__.py`. -/
def CATALOG_DB_SEPARATOR : Char := '#'

/-- `DB_EMPTY_MARKER` of `__init__.py`. -/
def DB_EMPTY_MARKER : List Char := "!".data

/-- `ThriftHiveMetastore.default_catalog` of `__init__.py`. -/
def default_catalog : List Char := DEFAULT_CATALOG_NAME

/-- `ThriftHiveMetastore.prepend_catalog_to_database` of `__init__.py`:
`None` database/catalog names are `Option.none`. -/
def prepend_catalog_to_database
    (database_name catalog_name : Option (List Char)) : List Char :=
  let catalog_name := catalog_name.getD default_catalog
  let buf := CATALOG_DB_THRIFT_NAME_MARKER :: catalog_name ++ [CATALOG_DB_SEPARATOR]
  match database_name with
  | none => buf
  | some db => buf ++ (if 0 < db.length then db else DB_EMPTY_MARKER)

/-- A concrete one-element data-column list used to exercise `convert_schema`. -/
def exampleCols : List FieldSchema := [⟨"a".data, "int".data, none⟩]

/-- A concrete one-element partition-column list used to exercise
`convert_schema`. -/
def examplePartCols : List FieldSchema := [⟨"p".data, "string".data, none⟩]

/-- The schema `convert_schema` assembles from `exampleCols` and
`examplePartCols`. -/
def exampleFields : List ArrowField :=
  [⟨"a".data, .int32, true, none⟩, ⟨"p".data, .string, true, none⟩]

/-- The splitter loop never returns an empty list of segments: the trailing
`yield string[i:]` always produces a final segment. -/
theorem awareSplitGo_ne_nil (s : List Char) (d q : Char) (eq : List Char) (ob cb : Char) :
    ∀ (rest : List Char) (j i : Nat) (parens : Int) (quotes : Bool) (ms : Int),
      awareSplitGo s d q eq ob cb rest j i parens quotes ms ≠ [] := by
  intro rest
  induction rest with
  | nil => intro j i parens quotes ms; simp [awareSplitGo]
  | cons c rest ih =>
    intro j i parens quotes ms
    simp only [awareSplitGo]
    split_ifs <;> simp [ih]

/-- Unfolding `joinWith` over a cons with a nonempty tail. -/
theorem joinWith_cons_of_ne_nil (d : Char) (x : List Char) {l : List (List Char)}
    (h : l ≠ []) : joinWith d (x :: l) = x ++ d :: joinWith d l := by
  cases l with
  | nil => exact absurd rfl h
  | cons y t => rfl

/-- Slicing decomposition: if position `j` of `s` holds `c` and `i ≤ j`, then
the suffix from `i` is the segment `s[i:j]`, then `c`, then the suffix from
`j + 1`. -/
theorem pySubstr_split (s : List Char) (i j : Nat) (c : Char) (rest : List Char)
    (hij : i ≤ j) (h : s.drop j = c :: rest) :
    s.drop i = pySubstr s i j ++ c :: s.drop (j + 1) := by
  have hdj : s.drop (j + 1) = rest := by
    have h2 := List.drop_drop 1 j s
    rw [h] at h2
    simpa using h2.symm
  have h3 : (s.drop i).drop (j - i) = s.drop j := by
    rw [List.drop_drop, Nat.add_sub_cancel' hij]
  calc s.drop i
      = (s.drop i).take (j - i) ++ (s.drop i).drop (j - i) :=
        (List.take_append_drop _ _).symm
    _ = pySubstr s i j ++ c :: s.drop (j + 1) := by
        rw [h3, h, hdj]; rfl

/-- Loop invariant of the splitter: joining the segments produced from state
`(j, i, …)` with the delimiter reconstructs exactly the suffix `s[i:]`. -/
theorem awareSplitGo_join (s : List Char) (d q : Char) (eq : List Char) (ob cb : Char) :
    ∀ (rest : List Char) (j i : Nat) (parens : Int) (quotes : Bool) (ms : Int),
      rest = s.drop j → i ≤ j →
      joinWith d (awareSplitGo s d q eq ob cb rest j i parens quotes ms) = s.drop i := by
  intro rest
  induction rest with
  | nil =>
    intro j i parens quotes ms hr hij
    simp [awareSplitGo, joinWith]
  | cons c rest ih =>
    intro j i parens quotes ms hr hij
    have hdj : s.drop j = c :: rest := hr.symm
    have hrest : rest = s.drop (j + 1) := by
      have h2 := List.drop_drop 1 j s
      rw [hdj] at h2
      simpa using h2
    have hij' : i ≤ j + 1 := Nat.le_succ_of_le hij
    simp only [awareSplitGo]
    by_cases hc : (parens = 0 ∧ quotes = false) ∧ c = d
    · rw [if_pos hc]
      by_cases hms : (if ms ≠ -1 then ms - 1 else ms) = 0
      · rw [if_pos hms]
        have hj : joinWith d [pySubstr s i j, s.drop (j + 1)] =
            pySubstr s i j ++ d :: s.drop (j + 1) := rfl
        rw [hj, ← hc.2]
        exact (pySubstr_split s i j c rest hij hdj).symm
      · rw [if_neg hms]
        have hne := awareSplitGo_ne_nil s d q eq ob cb rest (j + 1) (j + 1) parens quotes
          (if ms ≠ -1 then ms - 1 else ms)
        rw [joinWith_cons_of_ne_nil d _ hne,
          ih (j + 1) (j + 1) parens quotes _ hrest (le_refl _), ← hc.2]
        exact (pySubstr_split s i j c rest hij hdj).symm
    · rw [if_neg hc]
      by_cases h1 : c = ob
      · rw [if_pos h1]; exact ih (j + 1) i (parens + 1) quotes ms hrest hij'
      · rw [if_neg h1]
        by_cases h2 : c = cb
        · rw [if_pos h2]; exact ih (j + 1) i (parens - 1) quotes ms hrest hij'
        · rw [if_neg h2]
          by_cases h3 : c = q
          · rw [if_pos h3]; exact ih (j + 1) i parens _ ms hrest hij'
          · rw [if_neg h3]; exact ih (j + 1) i parens quotes ms hrest hij'

/-- `replace2` steps over a character that cannot start the pattern. -/
theorem replace2_cons_ne (a b r c : Char) (h : c ≠ a) :
    ∀ t, replace2 a b r (c :: t) = c :: replace2 a b r t
  | [] => rfl
  | c2 :: t => by simp [replace2, h]

/-- `unescapePass` copies a character that cannot start an escape pair. -/
theorem unescapePass_cons_ne (e q c : Char) (h : c ≠ e) :
    ∀ t, unescapePass e q (c :: t) = c :: unescapePass e q t
  | [] => rfl
  | c2 :: t => by simp [unescapePass, h]

/-- The two sequential replacements of `unquote` — `(escape, quote)` to quote,
then `(escape, escape)` to escape — coincide with a single left-to-right
unescaping pass, for any distinct escape and quote characters. -/
theorem replace_replace_eq_pass (e q : Char) (h : e ≠ q) :
    (s : List Char) → replace2 e e e (replace2 e q q s) = unescapePass e q s
  | [] => rfl
  | [c] => rfl
  | c1 :: c2 :: rest => by
    have hqe : q ≠ e := Ne.symm h
    by_cases h1 : c1 = e
    · rw [h1]
      by_cases h2 : c2 = q
      · rw [h2]
        rw [show replace2 e q q (e :: q :: rest) = q :: replace2 e q q rest by
          simp [replace2]]
        rw [replace2_cons_ne e e e q hqe]
        rw [show unescapePass e q (e :: q :: rest) = q :: unescapePass e q rest by
          simp [unescapePass]]
        exact congrArg (q :: ·) (replace_replace_eq_pass e q h rest)
      · by_cases h3 : c2 = e
        · rw [h3]
          rcases rest with _ | ⟨c3, t⟩
          · simp [replace2, unescapePass, h]
          · by_cases h4 : c3 = q
            · rw [h4]
              rw [show replace2 e q q (e :: e :: q :: t) =
                  e :: q :: replace2 e q q t by simp [replace2, h]]
              rw [show replace2 e e e (e :: q :: replace2 e q q t) =
                  e :: q :: replace2 e e e (replace2 e q q t) by
                simp [replace2, hqe, replace2_cons_ne e e e q hqe]]
              rw [show unescapePass e q (e :: e :: q :: t) =
                  e :: unescapePass e q (q :: t) by simp [unescapePass, h]]
              rw [unescapePass_cons_ne e q q hqe]
              exact congrArg (fun l => e :: q :: l) (replace_replace_eq_pass e q h t)
            · by_cases h5 : c3 = e
              · rw [h5]
                rw [show replace2 e q q (e :: e :: e :: t) =
                    e :: e :: replace2 e q q (e :: t) by simp [replace2, h]]
                rw [show replace2 e e e (e :: e :: replace2 e q q (e :: t)) =
                    e :: replace2 e e e (replace2 e q q (e :: t)) by simp [replace2]]
                rw [show unescapePass e q (e :: e :: e :: t) =
                    e :: unescapePass e q (e :: t) by simp [unescapePass, h]]
                exact congrArg (e :: ·) (replace_replace_eq_pass e q h (e :: t))
              · rw [show replace2 e q q (e :: e :: c3 :: t) =
                    e :: e :: c3 :: replace2 e q q t by
                  simp [replace2, h, h4, replace2_cons_ne e q q c3 h5]]
                rw [show replace2 e e e (e :: e :: c3 :: replace2 e q q t) =
                    e :: c3 :: replace2 e e e (replace2 e q q t) by
                  simp [replace2, replace2_cons_ne e e e c3 h5]]
                rw [show unescapePass e q (e :: e :: c3 :: t) =
                    e :: unescapePass e q (c3 :: t) by simp [unescapePass, h]]
                rw [unescapePass_cons_ne e q c3 h5]
                exact congrArg (fun l => e :: c3 :: l) (replace_replace_eq_pass e q h t)
        · rw [show replace2 e q q (e :: c2 :: rest) =
              e :: c2 :: replace2 e q q rest by
            simp [replace2, h2, replace2_cons_ne e q q c2 h3]]
          rw [show replace2 e e e (e :: c2 :: replace2 e q q rest) =
              e :: c2 :: replace2 e e e (replace2 e q q rest) by
            simp [replace2, h3, replace2_cons_ne e e e c2 h3]]
          rw [show unescapePass e q (e :: c2 :: rest) =
              e :: unescapePass e q (c2 :: rest) by simp [unescapePass, h2, h3]]
          rw [unescapePass_cons_ne e q c2 h3]
          exact congrArg (fun l => e :: c2 :: l) (replace_replace_eq_pass e q h rest)
    · rw [replace2_cons_ne e q q c1 h1, replace2_cons_ne e e e c1 h1,
        unescapePass_cons_ne e q c1 h1]
      exact congrArg (c1 :: ·) (replace_replace_eq_pass e q h (c2 :: rest))
termination_by s => s.length

/-- `convert_fields` keeps the column name unchanged on success. -/
theorem convert_fields_name (f : FieldSchema) (af : ArrowField)
    (h : convert_fields f = .ok af) : af.name = f.name := by
  unfold convert_fields at h
  cases hp : parse_dtype f.type with
  | error e => rw [hp] at h; cases h
  | ok p =>
    obtain ⟨dt, ws⟩ := p
    rw [hp] at h
    simp only at h
    cases h
    rfl

/-- A successful `convert_fields_list` preserves length and the ordered list
of column names. -/
theorem convert_fields_list_ok (l : List FieldSchema) (fl : List ArrowField)
    (h : convert_fields_list l = .ok fl) :
    fl.length = l.length ∧
      fl.map (fun f => f.name) = l.map (fun f => f.name) := by
  induction l generalizing fl with
  | nil =>
    unfold convert_fields_list at h
    cases h
    exact ⟨rfl, rfl⟩
  | cons f rest ih =>
    unfold convert_fields_list at h
    cases hf : convert_fields f with
    | error e => rw [hf] at h; cases h
    | ok af =>
      rw [hf] at h
      cases hr : convert_fields_list rest with
      | error e => rw [hr] at h; cases h
      | ok rst =>
        rw [hr] at h
        cases h
        obtain ⟨hl, hn⟩ := ih rst hr
        refine ⟨by simp [hl], ?_⟩
        simp [hn, convert_fields_name f af hf]

/-- C1 (counterexample): the type parser is not total — `parse_dtype "array"`
raises `AttributeError` (the regex captures no options and `None` is passed to
the recursive call, so `None.strip()` fails), and `parse_dtype "map<int>"`
raises `ValueError` (its single option segment cannot be unpacked into a key
and a value), so a malformed type descriptor can abort schema construction
instead of degrading to the null variant. -/
theorem c1_counterexample :
    parse_dtype "array".data = .error .attributeError ∧
    parse_dtype "map<int>".data = .error (.valueErrorUnpack 1) :=
  ⟨rfl, rfl⟩

/-- C1 (amended): the never-fail degradation holds exactly for the two
diagnosed cases — a descriptor whose keyword regex does not match yields the
null variant plus a could-not-parse warning, and a matched but unrecognized
type keyword yields the null variant plus an unsupported-datatype warning;
structurally malformed composite descriptors raise instead. -/
theorem c1_parse_dtype_degrades (dtype : List Char) :
    (re_match_dtype (normalize_dtype dtype) = none →
      parse_dtype dtype = .ok (.null, [.couldNotParse (normalize_dtype dtype)])) ∧
    (∀ tn opts, re_match_dtype (normalize_dtype dtype) = some (tn, opts) →
      tn ∉ KNOWN_TYPE_KEYWORDS →
      parse_dtype dtype = .ok (.null, [.unsupported (normalize_dtype dtype)])) := by
  constructor
  · intro h
    unfold parse_dtype parse_dtype_fuel parse_dtype_step
    rw [h]
  · intro tn opts h hmem
    simp only [KNOWN_TYPE_KEYWORDS, List.mem_cons, List.not_mem_nil, or_false,
      not_or] at hmem
    obtain ⟨e1, e2, e3, e4, e5, e6, e7, e8, e9, e10, e11, e12, e13, e14, e15,
      e16, e17, e18, e19, e20, e21⟩ := hmem
    unfold parse_dtype parse_dtype_fuel parse_dtype_step
    rw [h]
    simp only [e1, e2, e3, e4, e5, e6, e7, e8, e9, e10, e11, e12, e13, e14,
      e15, e16, e17, e18, e19, e20, e21, if_false, or_self, ite_false]

/-- C1 (witness): the unrecognized keyword `frobnicate` degrades to the null
variant with an unsupported-datatype warning. -/
theorem c1_witness :
    parse_dtype "frobnicate".data =
      .ok (.null, [.unsupported (normalize_dtype "frobnicate".data)]) :=
  (c1_parse_dtype_degrades "frobnicate".data).2 "FROBNICATE".data none rfl
    (by decide)

/-- C2 (evaluation at the failing input): `struct<a:int,b:string>` raises a
`ValueError` — entries are split on the first space, and `a:int` contains
none, so the (name, type) unpacking fails; the space-separated variant
`struct<a int,b string>` parses, but with the field names uppercased (the
whole descriptor is uppercased before tokenization), in entry order. -/
theorem c2_struct_parse_behavior :
    parse_dtype "struct<a:int,b:string>".data = .error (.valueErrorUnpack 1) ∧
    parse_dtype "struct<a int,b string>".data =
      .ok (.struct [("A".data, .int32), ("B".data, .string)], []) :=
  ⟨rfl, rfl⟩

/-- C3 (evaluation at the failing input): `decimal(5,2)` parses as
decimal128(10, 0) — the keyword regex only captures options inside angle
brackets, so the parenthesized precision and scale are silently dropped;
bare `decimal` also gives decimal128(10, 0); angle-bracket options
`decimal<5,2>` are split on the comma but passed to the decimal constructor
as raw strings, which raises `TypeError`. -/
theorem c3_decimal_parse_behavior :
    parse_dtype "decimal(5,2)".data = .ok (.decimal128 10 0, []) ∧
    parse_dtype "decimal".data = .ok (.decimal128 10 0, []) ∧
    parse_dtype "decimal<5,2>".data = .error .typeError :=
  ⟨rfl, rfl, rfl⟩

/-- C4 (counterexample): schema assembly is not total in the column records —
a data column whose type descriptor is `array` makes `convert_schema` raise
(`AttributeError` from the type parser), so no schema with N+M fields is
produced for this input. -/
theorem c4_counterexample :
    convert_schema [⟨"x".data, "array".data, none⟩] [] = .error .attributeError :=
  rfl

/-- C4 (amended): whenever `convert_schema` returns a schema, it is the
data-column fields followed by the partition-column fields, has exactly
N + M fields, and the ordered field names are the data-column names followed
by the partition-column names. -/
theorem c4_schema_assembly (cols part_cols : List FieldSchema) (fs : List ArrowField)
    (h : convert_schema cols part_cols = .ok fs) :
    ∃ fields part_fields,
      convert_fields_list cols = .ok fields ∧
      convert_fields_list part_cols = .ok part_fields ∧
      fs = fields ++ part_fields ∧
      fs.length = cols.length + part_cols.length ∧
      fs.map (fun f => f.name) =
        cols.map (fun c => c.name) ++ part_cols.map (fun c => c.name) := by
  unfold convert_schema at h
  cases hc : convert_fields_list cols with
  | error e => rw [hc] at h; cases h
  | ok fields =>
    rw [hc] at h
    cases hp : convert_fields_list part_cols with
    | error e => rw [hp] at h; cases h
    | ok part_fields =>
      rw [hp] at h
      cases h
      obtain ⟨hl1, hn1⟩ := convert_fields_list_ok cols fields hc
      obtain ⟨hl2, hn2⟩ := convert_fields_list_ok part_cols part_fields hp
      exact ⟨fields, part_fields, rfl, rfl, rfl,
        by simp [hl1, hl2], by simp [hn1, hn2]⟩

/-- C4 (witness): one `int` data column and one `string` partition column
assemble into the two-field schema, data field first. -/
theorem c4_witness :
    convert_schema exampleCols examplePartCols = .ok exampleFields ∧
    ∃ fields part_fields,
      convert_fields_list exampleCols = .ok fields ∧
      convert_fields_list examplePartCols = .ok part_fields ∧
      exampleFields = fields ++ part_fields ∧
      exampleFields.length = exampleCols.length + examplePartCols.length ∧
      exampleFields.map (fun f => f.name) =
        exampleCols.map (fun c => c.name) ++ examplePartCols.map (fun c => c.name) :=
  ⟨rfl, c4_schema_assembly exampleCols examplePartCols exampleFields rfl⟩

/-- C5: the namespace qualifier emits the marker `'@'`, the catalog name
(defaulting to `"hive"`), the separator `'#'`, and then the database name if
non-empty, the sentinel `"!"` if explicitly empty, and nothing if absent;
in particular catalog `"hive"` with database `"default"` gives
`"@hive#default"`. -/
theorem c5_prepend_catalog :
    (∀ (database_name catalog_name : Option (List Char)),
      prepend_catalog_to_database database_name catalog_name =
        CATALOG_DB_THRIFT_NAME_MARKER ::
          (catalog_name.getD DEFAULT_CATALOG_NAME ++
            CATALOG_DB_SEPARATOR ::
              (match database_name with
               | none => []
               | some db => if 0 < db.length then db else DB_EMPTY_MARKER))) ∧
    prepend_catalog_to_database (some "default".data) (some "hive".data) =
      "@hive#default".data := by
  constructor
  · intro database_name catalog_name
    cases database_name <;>
      simp [prepend_catalog_to_database, default_catalog]
  · rfl

/-- C6: calling the splitter with a maximum split count below −1 yields the
invalid-argument `ValueError` and no segments, for every input string and
every choice of the other parameters. -/
theorem c6_max_split_contract (string : List Char) (delimiter : Char)
    (max_split : Int) (quo : Char) (escaped_quote : List Char)
    (open_bracket close_bracket : Char) (h : max_split < -1) :
    aware_split string delimiter max_split quo escaped_quote open_bracket
      close_bracket = .error (.valueErrorMaxSplit max_split) := by
  unfold aware_split
  rw [if_pos h]

/-- C6 (witness): splitting `"abc"` with max-split −2 fails with the
caller-contract error. -/
theorem c6_witness :
    aware_split "abc".data ',' (-2) '"' ['\\', '"'] '(' ')' =
      .error (.valueErrorMaxSplit (-2)) :=
  c6_max_split_contract "abc".data ',' (-2) '"' ['\\', '"'] '(' ')'
    (by norm_num)

/-- C7: splitting `a,b,(c,d),"e,f"` on a comma with the default parameters
yields exactly the four segments `a`, `b`, `(c,d)` and `"e,f"` (quotes
retained); and in the scanning loop a comma seen at positive bracket depth or
with the quote flag set never terminates a segment — the scan steps over it
with unchanged state. -/
theorem c7_split_aware :
    aware_split "a,b,(c,d),\"e,f\"".data ',' (-1) '"' ['\\', '"'] '(' ')' =
      .ok ["a".data, "b".data, "(c,d)".data, "\"e,f\"".data] ∧
    ∀ (s rest : List Char) (j i : Nat) (parens : Int) (quotes : Bool) (ms : Int),
      0 < parens ∨ quotes = true →
      awareSplitGo s ',' '"' ['\\', '"'] '(' ')' (',' :: rest) j i parens quotes ms =
        awareSplitGo s ',' '"' ['\\', '"'] '(' ')' rest (j + 1) i parens quotes ms := by
  constructor
  · rfl
  · intro s rest j i parens quotes ms h
    have hnc : ¬(parens = 0 ∧ quotes = false) := by
      rintro ⟨hp, hq⟩
      rcases h with h | h
      · omega
      · rw [h] at hq; cases hq
    simp only [awareSplitGo, and_true]
    rw [if_neg hnc, if_neg (by decide : ¬(',' : Char) = '('),
      if_neg (by decide : ¬(',' : Char) = ')'),
      if_neg (by decide : ¬(',' : Char) = '"')]

/-- C7 (witness): with bracket depth 1 a comma is stepped over without
terminating a segment. -/
theorem c7_witness :
    awareSplitGo "x".data ',' '"' ['\\', '"'] '(' ')' [','] 0 0 1 false (-1) =
      awareSplitGo "x".data ',' '"' ['\\', '"'] '(' ')' [] 1 0 1 false (-1) :=
  c7_split_aware.2 "x".data [] 0 0 1 false (-1) (Or.inl (by norm_num))

/-- C8: with the inside-quotes flag set, an open bracket still increments and
a close bracket still decrements the depth counter (bracket counting is not
suppressed inside quoted regions); consequently splitting `"("a,b` on a comma
yields the whole string as a single segment — the comma after the quoted
unbalanced bracket does not terminate a segment. -/
theorem c8_bracket_depth_in_quotes :
    (∀ (s rest : List Char) (j i : Nat) (parens ms : Int),
      awareSplitGo s ',' '"' ['\\', '"'] '(' ')' ('(' :: rest) j i parens true ms =
        awareSplitGo s ',' '"' ['\\', '"'] '(' ')' rest (j + 1) i (parens + 1) true ms) ∧
    (∀ (s rest : List Char) (j i : Nat) (parens ms : Int),
      awareSplitGo s ',' '"' ['\\', '"'] '(' ')' (')' :: rest) j i parens true ms =
        awareSplitGo s ',' '"' ['\\', '"'] '(' ')' rest (j + 1) i (parens - 1) true ms) ∧
    aware_split "\"(\"a,b".data ',' (-1) '"' ['\\', '"'] '(' ')' =
      .ok ["\"(\"a,b".data] := by
  refine ⟨?_, ?_, rfl⟩
  · intro s rest j i parens ms
    simp [awareSplitGo]
  · intro s rest j i parens ms
    simp [awareSplitGo]

/-- C9: `unquote` strips a surrounding pair of quote characters and applies
the two sequential literal replacements (escape-quote to quote, then
escape-escape to escape), which coincide with a single left-to-right
unescaping pass; a string not both starting and ending with the quote
character is returned unchanged; `"a\"b"` unquotes to `a"b` and `abc` stays
`abc`. -/
theorem c9_unquote_contract :
    (∀ (quo esc : Char) (s : List Char),
      s.head? = some quo → s.getLast? = some quo →
      unquote s quo esc =
        replace2 esc esc esc (replace2 esc quo quo ((s.drop 1).dropLast))) ∧
    (∀ (quo esc : Char) (s : List Char),
      ¬(s.head? = some quo ∧ s.getLast? = some quo) → unquote s quo esc = s) ∧
    (∀ (esc quo : Char), esc ≠ quo → ∀ s,
      replace2 esc esc esc (replace2 esc quo quo s) = unescapePass esc quo s) ∧
    unquote "\"a\\\"b\"".data '"' '\\' = "a\"b".data ∧
    unquote "abc".data '"' '\\' = "abc".data := by
  refine ⟨?_, ?_, ?_, rfl, rfl⟩
  · intro quo esc s h1 h2
    unfold unquote
    rw [if_pos ⟨h1, h2⟩]
  · intro quo esc s h
    unfold unquote
    rw [if_neg h]
  · intro esc quo h s
    exact replace_replace_eq_pass esc quo h s

/-- C9 (witness): the sequential replacements equal the single pass on
`a\\b`, and the quoted `"x"` unquotes to `x`. -/
theorem c9_witness :
    replace2 '\\' '\\' '\\' (replace2 '\\' '"' '"' "a\\\\b".data) =
      unescapePass '\\' '"' "a\\\\b".data ∧
    unquote "\"x\"".data '"' '\\' = "x".data :=
  ⟨c9_unquote_contract.2.2.1 '\\' '"' (by decide) "a\\\\b".data,
    (c9_unquote_contract.1 '"' '\\' "\"x\"".data rfl rfl).trans rfl⟩

/-- C10: for every input string, single-character delimiter and maximum split
count at least −1 (and any quote, escaped-quote and bracket parameters), the
splitter succeeds and interleaving its segments with the delimiter
reconstructs the original string exactly. -/
theorem c10_split_join (s : List Char) (d : Char) (ms : Int) (quo : Char)
    (escaped_quote : List Char) (ob cb : Char) (hms : -1 ≤ ms) :
    ∃ segs, aware_split s d ms quo escaped_quote ob cb = .ok segs ∧
      joinWith d segs = s := by
  unfold aware_split
  rw [if_neg (by omega)]
  by_cases h0 : ms = 0
  · rw [if_pos h0]
    exact ⟨[s], rfl, rfl⟩
  · rw [if_neg h0]
    refine ⟨_, rfl, ?_⟩
    have h := awareSplitGo_join s d quo escaped_quote ob cb s 0 0 0 false ms
      (List.drop_zero s).symm (le_refl 0)
    simpa using h

/-- C10 (witness): joining the segments of `a,(b,c),"d,e"` with the comma
gives back the input. -/
theorem c10_witness :
    ∃ segs, aware_split "a,(b,c),\"d,e\"".data ',' (-1) '"' ['\\', '"'] '(' ')' =
        .ok segs ∧ joinWith ',' segs = "a,(b,c),\"d,e\"".data :=
  c10_split_join "a,(b,c),\"d,e\"".data ',' (-1) '"' ['\\', '"'] '(' ')'
    (by norm_num)

end HiveMetastore
